import Mathlib

/-!
# Verification of the go-mailgen component/builder core

A shallow embedding of the plain-text table renderer (`component.go`) and of
the document builder (`builder.go`) of the go-mailgen repository, together
with theorems settling the specification claims about them.

Embedding conventions:
* Go strings are modelled as Lean `String`; Go `len` (bytes) is modelled as
  `String.length` (characters) — they agree on ASCII data, and no claim
  depends on multi-byte encodings.
* Go `map[string]string` values are modelled as association lists
  (`List (String × String)`): `m[k]` with the `ok` flag is `List.lookup`,
  and a Go lookup that defaults to the zero value `""` is `(lookup …).getD ""`.
* Go `int` is modelled as `Int`; Go integer division truncates toward zero,
  which is `Int.tdiv`.
* `strings.Repeat(s, n)` panics on negative `n`; the model clamps with
  `Int.toNat`.  Every call site proved about keeps the count non-negative,
  where the two agree.
-/

namespace Mailgen

/-- Go's `type Entry struct { Key, Value string }` (component.go). -/
structure Entry where
  key : String
  value : String
  deriving Repr, DecidableEq

/-- Go's `type Columns struct { CustomWidth, CustomAlign map[string]string }` (component.go). -/
structure Columns where
  customWidth : List (String × String)
  customAlign : List (String × String)
  deriving Repr, DecidableEq

/-- Go's `type Table struct { Data [][]Entry; Columns Columns }` (component.go). -/
structure Table where
  data : List (List Entry)
  columns : Columns
  deriving Repr, DecidableEq

/-- A run of `n` copies of character `c`: `strings.Repeat(string(c), n)`. -/
def strRepeat (c : Char) (n : Nat) : String :=
  String.mk (List.replicate n c)

/-- The numeric value of a list of decimal digit characters, `none` when the
list is empty or contains a non-digit: the digit loop of `strconv.Atoi`. -/
def decVal (cs : List Char) : Option Nat :=
  if cs ≠ [] ∧ cs.all Char.isDigit then
    some (cs.foldl (fun a c => a * 10 + (c.toNat - 48)) 0)
  else
    none

/-- Go's `strconv.Atoi`: an optional sign followed by at least one decimal digit;
anything else is an error (`none`).  (The int64 range check is not modelled:
no claim involves a 19-digit width.) -/
def atoi (s : String) : Option Int :=
  match s.data with
  | '+' :: rest => (decVal rest).map Int.ofNat
  | '-' :: rest => (decVal rest).map (fun n => -(n : Int))
  | l => (decVal l).map Int.ofNat

/-- The initial width of column `col` (the first loop of `Table.PlainText`,
component.go lines 96-103): `len(col)`, overridden by a custom width that
parses as an integer. -/
def initWidth (t : Table) (col : String) : Int :=
  match t.columns.customWidth.lookup col with
  | some wStr =>
    match atoi wStr with
    | some w => w
    | none => (col.length : Int)
  | none => (col.length : Int)

/-- One step of the width scan (component.go lines 108-111):
`if width > colWidths[entry.Key] { colWidths[entry.Key] = width }`,
restricted to the single key `col`. -/
def updWidth (col : String) (w : Int) (e : Entry) : Int :=
  if e.key = col then
    if (e.value.length : Int) > w then (e.value.length : Int) else w
  else w

/-- The scan of one row for column `col`'s width (inner loop of
component.go lines 106-113). -/
def rowWidth (col : String) (w : Int) (row : List Entry) : Int :=
  row.foldl (updWidth col) w

/-- The final width of column `col`: the initial width updated by scanning
every entry of every row (component.go lines 94-113).  The scan runs
unconditionally, also when a custom width was supplied. -/
def colWidth (t : Table) (col : String) : Int :=
  t.data.foldl (fun w row => rowWidth col w row) (initWidth t col)

/-- The content-driven width of column `col`: what the scan of component.go
lines 106-113 computes when started from zero instead of the initial
width.  For a column that occurs in some row this is the maximum value
length of the column; it is used to state the amended form of the
custom-width claim. -/
def maxContentWidth (t : Table) (col : String) : Int :=
  t.data.foldl (fun w row => rowWidth col w row) 0

/-- The lengths of the values of the entries with key `col`, in scan
order. -/
def matchLens (col : String) : List Entry → List Int
  | [] => []
  | e :: rest =>
    if e.key = col then (e.value.length : Int) :: matchLens col rest
    else matchLens col rest

/-- The `matchLens` lists collected over a list of rows. -/
def allMatchLens (col : String) (rows : List (List Entry)) : List Int :=
  rows.foldr (fun row acc => matchLens col row ++ acc) []

/-- The column order: the keys of the first row (component.go lines 89-92). -/
def columnNames (t : Table) : List String :=
  (t.data.headD []).map Entry.key

/-- Every row of the table has exactly the keys of the first row, in the
first row's order. -/
def rowsAligned (t : Table) : Prop :=
  ∀ row ∈ t.data, row.map Entry.key = columnNames t

/-- The alignment `t.Columns.CustomAlign[col]` — a Go map read without the `ok` flag
defaults to `""`. -/
def alignOf (t : Table) (col : String) : String :=
  (t.columns.customAlign.lookup col).getD ""

/-- A run of `n` spaces. -/
def spaces (n : Nat) : String :=
  strRepeat ' ' n

/-- Go's `Table.padString` (component.go lines 154-166).
`fmt.Sprintf("%*s", width, s)` pads on the left to `width` (a negative star
width left-justifies, per the `fmt` rules); `fmt.Sprintf("%-*s", width, s)`
pads on the right; `center` splits `width - len(s)` with truncated division.
Neither `%*s` nor `%-*s` ever truncates `s`. -/
def padString (s : String) (width : Int) (align : String) : String :=
  if align = "right" then
    if 0 ≤ width then spaces (width.toNat - s.length) ++ s
    else s ++ spaces (width.natAbs - s.length)
  else if align = "center" then
    let pad : Int := width - (s.length : Int)
    let left : Int := Int.tdiv pad 2
    let right : Int := pad - left
    spaces left.toNat ++ s ++ spaces right.toNat
  else
    s ++ spaces (width.natAbs - s.length)

/-- Go's `Table.capitalize` (component.go lines 168-175): upper-case the first
character, keep the rest. -/
def capitalize (s : String) : String :=
  match s.data with
  | [] => ""
  | c :: cs => String.mk (c.toUpper :: cs)

/-- Cells joined by a separator, written between consecutive cells only:
the `if i < len(columnNames)-1 { sb.WriteString(sep) }` loop shape used by
all three row emitters of `Table.PlainText`. -/
def joinSep (sep : String) : List String → String
  | [] => ""
  | [x] => x
  | x :: y :: xs => x ++ sep ++ joinSep sep (y :: xs)

/-- The header cell for column `col` (component.go line 119). -/
def headerCell (t : Table) (col : String) : String :=
  padString (capitalize col) (colWidth t col) (alignOf t col)

/-- The header row with its trailing newline (component.go lines 117-124):
cells joined by `" | "`. -/
def headerRow (t : Table) : String :=
  joinSep " | " ((columnNames t).map (headerCell t)) ++ "\n"

/-- The separator row with its trailing newline (component.go lines
126-133): dashes to each column's width, joined by `"-+-"`. -/
def separatorRow (t : Table) : String :=
  joinSep "-+-"
    ((columnNames t).map (fun col => strRepeat '-' (colWidth t col).toNat)) ++ "\n"

/-- The `entryMap` of a data row (component.go lines 137-140): a Go map
built by insertion, so a later entry with the same key overwrites an
earlier one, and a missing key reads as `""`. -/
def entryMap (row : List Entry) (col : String) : String :=
  row.foldl (fun f e => fun k => if k = e.key then e.value else f k)
    (fun _ => "") col

/-- One rendered data row with its trailing newline (component.go lines
136-149). -/
def dataRow (t : Table) (row : List Entry) : String :=
  joinSep " | "
    ((columnNames t).map (fun col =>
      padString (entryMap row col) (colWidth t col) (alignOf t col))) ++ "\n"

/-- Go's `Table.PlainText` (component.go lines 83-152).  The Go function also
returns an always-`nil` error, dropped here. -/
def Table.plainText (t : Table) : String :=
  if t.data.isEmpty || (t.data.headD []).isEmpty then ""
  else
    headerRow t ++ separatorRow t ++ String.join (t.data.map (dataRow t))

/-- Go's `type Address struct { Name, Address string }` (message.go).  `from` is a
Lean keyword, so the Builder field `from` is rendered `fromAddr`. -/
structure Address where
  name : String
  address : String
  deriving Repr, DecidableEq

/-- Go's `type Product struct { Name, Link, Logo, Copyright string }` (builder.go
lines 17-22). -/
structure Product where
  name : String
  link : String
  logo : String
  copyright : String
  deriving Repr, DecidableEq

/-- The state of one `Action` value (component.go lines 21-27).  In Go the
builder's `components` and `fallbacks` lists share `*Action` pointers, so
actions live in a store (`Builder.actionStore`) and both lists refer to them
by index. -/
structure ActionData where
  text : String
  link : String
  color : String
  noFallback : Bool
  fallbackText : String
  deriving Repr, DecidableEq

/-- One element of `Builder.components`: a `Line` value, a `*Action`
reference, or a `*Table` value. -/
inductive Component where
  | line (text : String)
  | actionRef (i : Nat)
  | table (t : Table)
  deriving Repr, DecidableEq

/-- Go's `type Builder struct` (builder.go lines 26-43). -/
structure Builder where
  subject : String
  fromAddr : Address
  toAddrs : List String
  cc : List String
  bcc : List String
  textDirection : String
  theme : String
  preheader : String
  greeting : String
  name : String
  salutation : String
  components : List Component
  actionStore : List ActionData
  fallbacks : List Nat
  fallbackFormat : String
  product : Product
  deriving Repr, DecidableEq

/-- Go's `newDefaultBuilder` (builder.go lines 51-64); `year` is
`time.Now().Year()`. -/
def newDefaultBuilder (year : Nat) : Builder where
  subject := ""
  fromAddr := ⟨"", ""⟩
  toAddrs := []
  cc := []
  bcc := []
  textDirection := "ltr"
  theme := "default"
  preheader := ""
  greeting := "Hi"
  name := ""
  salutation := "Best regards"
  components := []
  actionStore := []
  fallbacks := []
  fallbackFormat := "If you're having trouble clicking the \"[ACTION]\" button, copy and paste the URL below into your web browser:"
  product :=
    { name := "Go-Mailgen"
      link := "https://github.com/akfaiz/go-mailgen"
      logo := ""
      copyright := "© " ++ toString year ++ " Go-Mailgen. All rights reserved." }

/-- Go's `Builder.clone` (builder.go lines 66-84): every field copied, slice
fields into fresh backing arrays with the same elements. -/
def Builder.clone (b : Builder) : Builder where
  textDirection := b.textDirection
  subject := b.subject
  fromAddr := b.fromAddr
  toAddrs := b.toAddrs
  cc := b.cc
  bcc := b.bcc
  theme := b.theme
  fallbackFormat := b.fallbackFormat
  preheader := b.preheader
  greeting := b.greeting
  name := b.name
  salutation := b.salutation
  fallbacks := b.fallbacks
  components := b.components
  actionStore := b.actionStore
  product := b.product

/-- Go's `SetDefault` (builder.go lines 99-104) acting on the registry cell
`defaultBuilder` (an `atomic.Pointer[Builder]`, i.e. a possibly-nil
pointer): storing nil is a no-op. -/
def SetDefault (st : Option Builder) (b : Option Builder) : Option Builder :=
  match b with
  | none => st
  | some b' => some b'

/-- The reachable states of the registry cell: `init()` (builder.go lines
47-49) stores `newDefaultBuilder()`, and afterwards the cell is only
written by `SetDefault`. -/
inductive RegistryReachable : Option Builder → Prop where
  | init (year : Nat) : RegistryReachable (some (newDefaultBuilder year))
  | step (st b : Option Builder) :
      RegistryReachable st → RegistryReachable (SetDefault st b)

/-- Go's `New()` (builder.go lines 116-118): load the current prototype and
clone it.  A nil prototype would be a nil-pointer dereference, modelled by
`Option.map`. -/
def New (st : Option Builder) : Option Builder :=
  st.map Builder.clone

/-- Go's `Builder.TextDirection` (builder.go lines 194-200): only `"ltr"` and
`"rtl"` are accepted, anything else returns the builder unchanged. -/
def Builder.TextDirection (b : Builder) (direction : String) : Builder :=
  if direction ≠ "ltr" ∧ direction ≠ "rtl" then b
  else { b with textDirection := direction }

/-- Go's `Builder.Product` (builder.go lines 292-305), statement by statement:
`defaultProduct` is `defaultBuilder.Load().product` and `year` is
`time.Now().Year()`. -/
def Builder.Product (b : Builder) (defaultProduct : Product) (year : Nat)
    (product : Product) : Builder :=
  let p0 := product
  let p1 := if p0.name = "" then { p0 with name := defaultProduct.name } else p0
  let p2 :=
    if p1.copyright = "" then
      { p1 with copyright :=
          "© " ++ toString year ++ " " ++ p1.name ++ ". All rights reserved." }
    else p1
  let p3 := { p2 with link := product.link }
  { b with product := p3 }

/-- Go's `Builder.Table` (builder.go lines 334-341): a table with no rows is not
added. -/
def Builder.Table (b : Builder) (table : Table) : Builder :=
  if table.data.isEmpty then b
  else { b with components := b.components ++ [Component.table table] }

/-- The assignment of builder.go line 371: `fallback.FallbackText =
strings.ReplaceAll(b.fallbackFormat, "[ACTION]", fallback.Text)`;
`strings.ReplaceAll` is Lean's `String.replace`. -/
def rewriteFallback (format : String) (a : ActionData) : ActionData :=
  { a with fallbackText := format.replace "[ACTION]" a.text }

/-- The in-place update of one fallback action: the pointed-to action in
the store is overwritten with its rewritten form. -/
def setFallback (format : String) (store : List ActionData) (i : Nat) :
    List ActionData :=
  match store.get? i with
  | some a => store.set i (rewriteFallback format a)
  | none => store

/-- Go's `Builder.beforeBuild` (builder.go lines 369-373): rewrite every
registered fallback action's fallback text in place. -/
def Builder.beforeBuild (b : Builder) : Builder :=
  { b with actionStore := b.fallbacks.foldl (setFallback b.fallbackFormat) b.actionStore }

/-- The immutable `message` value produced by `Build` (message.go). -/
structure Document where
  subject : String
  fromAddr : Address
  toAddrs : List String
  cc : List String
  bcc : List String
  html : String
  plainText : String
  deriving Repr, DecidableEq

/-- Go's `Builder.Build` (builder.go lines 348-367).  `generateHTML` and
`generatePlaintext` execute the bundled templates and, for HTML, the
external CSS inliner; both are deterministic functions of the builder
state and are abstracted as function parameters.  `beforeBuild` mutates
the builder in place, so `Build` returns the mutated builder alongside the
document. -/
def Builder.Build (generateHTML generatePlaintext : Builder → String)
    (b : Builder) : Builder × Document :=
  let b1 := b.beforeBuild
  (b1,
   { subject := b1.subject
     fromAddr := b1.fromAddr
     toAddrs := b1.toAddrs
     cc := b1.cc
     bcc := b1.bcc
     html := generateHTML b1
     plainText := generatePlaintext b1 })

end Mailgen

namespace Mailgen

/-- C2: for the table with rows `[{Name: John, Age: 30}, {Name: Jane, Age: 25}]`
and no custom widths or alignments, plain-text rendering returns exactly
`"Name | Age\n-----+----\nJohn | 30 \nJane | 25 \n"`: header row, separator
joined by `"-+-"`, data rows left-padded to column width, and a trailing
newline after the final row. -/
theorem plainText_example_names_ages :
    Table.plainText
      { data := [[⟨"Name", "John"⟩, ⟨"Age", "30"⟩],
                 [⟨"Name", "Jane"⟩, ⟨"Age", "25"⟩]],
        columns := ⟨[], []⟩ } =
    "Name | Age\n-----+----\nJohn | 30 \nJane | 25 \n" := by
  decide

/-- C9: a table with zero rows, and a table whose first row has zero
columns, renders to the empty plain-text string; and passing a table with
zero rows to `Builder.Table` returns the builder unchanged, so its
component list is unchanged. -/
theorem plainText_empty_table (t : Table) (b : Builder)
    (h : t.data = [] ∨ t.data.headD [] = []) :
    Table.plainText t = "" ∧
      (t.data = [] → Builder.Table b t = b ∧
        (Builder.Table b t).components = b.components) := by
  constructor
  · rcases h with h | h
    · simp [Table.plainText, h]
    · have hc : (t.data.isEmpty || (t.data.headD []).isEmpty) = true := by
        rw [h]
        simp
      unfold Table.plainText
      rw [hc]
      rfl
  · intro h0
    have hb : Builder.Table b t = b := by simp [Builder.Table, h0]
    exact ⟨hb, by rw [hb]⟩

/-- Witness for C9 at the concrete empty table. -/
theorem plainText_empty_table_witness :
    Table.plainText ⟨[], ⟨[], []⟩⟩ = "" ∧
      (([] : List (List Entry)) = [] →
        Builder.Table (newDefaultBuilder 2025) ⟨[], ⟨[], []⟩⟩ = newDefaultBuilder 2025 ∧
        (Builder.Table (newDefaultBuilder 2025) ⟨[], ⟨[], []⟩⟩).components =
          (newDefaultBuilder 2025).components) :=
  plainText_empty_table ⟨[], ⟨[], []⟩⟩ (newDefaultBuilder 2025) (Or.inl rfl)

/-- C7: `TextDirection` with any string other than `"ltr"` and `"rtl"`
(including `""`) returns the builder with every field unchanged; with
`"ltr"` or `"rtl"` it updates exactly the text-direction field. -/
theorem textDirection_accepts_only_ltr_rtl (b : Builder) (d : String) :
    (d ≠ "ltr" → d ≠ "rtl" → b.TextDirection d = b) ∧
      (d = "ltr" ∨ d = "rtl" →
        b.TextDirection d = { b with textDirection := d }) := by
  constructor
  · intro h1 h2
    simp [Builder.TextDirection, h1, h2]
  · rintro (rfl | rfl) <;> simp [Builder.TextDirection]

/-- Witness for C7: `"center"` is rejected (the stored direction `"ltr"` of
the default builder survives), `"rtl"` is accepted. -/
theorem textDirection_accepts_only_ltr_rtl_witness :
    (newDefaultBuilder 2025).TextDirection "center" = newDefaultBuilder 2025 ∧
      (newDefaultBuilder 2025).TextDirection "rtl" =
        { newDefaultBuilder 2025 with textDirection := "rtl" } :=
  ⟨(textDirection_accepts_only_ltr_rtl (newDefaultBuilder 2025) "center").1
      (by decide) (by decide),
   (textDirection_accepts_only_ltr_rtl (newDefaultBuilder 2025) "rtl").2
      (Or.inr rfl)⟩

/-- C6: `Builder.Product` backfills an empty `Name` from the default
prototype's product name, keeps a non-empty `Name`, backfills an empty
`Copyright` with `"© <year> <resolvedName>. All rights reserved."`, keeps a
non-empty `Copyright`, and always stores the caller's `Link` verbatim. -/
theorem product_merges_defaults (b : Builder) (dp : Product) (year : Nat)
    (p : Product) :
    ((b.Product dp year p).product.link = p.link) ∧
      (p.name = "" → (b.Product dp year p).product.name = dp.name) ∧
      (p.name ≠ "" → (b.Product dp year p).product.name = p.name) ∧
      (p.copyright = "" →
        (b.Product dp year p).product.copyright =
          "© " ++ toString year ++ " " ++ (b.Product dp year p).product.name ++
            ". All rights reserved.") ∧
      (p.copyright ≠ "" →
        (b.Product dp year p).product.copyright = p.copyright) := by
  unfold Builder.Product
  by_cases hn : p.name = "" <;> by_cases hc : p.copyright = "" <;>
    simp [hn, hc]

/-- Witness for C6: `Product{}` (all fields empty) resolves to the registry
name, the generated copyright line, and an empty link. -/
theorem product_merges_defaults_witness :
    (((newDefaultBuilder 2025).Product (newDefaultBuilder 2025).product 2025
        ⟨"", "", "", ""⟩).product.link = "") ∧
      (((newDefaultBuilder 2025).Product (newDefaultBuilder 2025).product 2025
          ⟨"", "", "", ""⟩).product.name = "Go-Mailgen") := by
  have h := product_merges_defaults (newDefaultBuilder 2025)
    (newDefaultBuilder 2025).product 2025 ⟨"", "", "", ""⟩
  refine ⟨h.1, ?_⟩
  rw [h.2.1 rfl]
  rfl

/-- The length of a repeated-character run is the count. -/
theorem strRepeat_length (c : Char) (n : Nat) : (strRepeat c n).length = n := by
  simp [strRepeat, String.length]

/-- The length of a run of spaces is the count. -/
theorem spaces_length (n : Nat) : (spaces n).length = n :=
  strRepeat_length ' ' n

/-- C3: for a cell value that fits its resolved column width, alignment
`"right"` puts all the padding on the left of the value, `"center"` splits
the padding `width - len(s)` into a left part and a right part that differ
by at most one with the left part never the larger, and any other alignment
value (including the unset `""`) puts all the padding on the right. -/
theorem padString_alignment_semantics (s : String) (w : Int) (a : String)
    (hw : (s.length : Int) ≤ w) :
    (padString s w "right" = spaces (w - s.length).toNat ++ s) ∧
      (∃ l r : Nat, padString s w "center" = spaces l ++ s ++ spaces r ∧
        (l : Int) + (r : Int) = w - s.length ∧ l ≤ r ∧ r ≤ l + 1) ∧
      (a ≠ "right" → a ≠ "center" →
        padString s w a = s ++ spaces (w - s.length).toNat) := by
  have h0 : 0 ≤ w := le_trans (Int.ofNat_nonneg s.length) hw
  refine ⟨?_, ?_, ?_⟩
  · have harith : w.toNat - s.length = (w - s.length).toNat := by omega
    unfold padString
    rw [if_pos rfl, if_pos h0, harith]
  · have hpad : 0 ≤ w - (s.length : Int) := by omega
    have ht : (w - (s.length : Int)).tdiv 2 = (w - (s.length : Int)) / 2 :=
      Int.tdiv_eq_ediv hpad (by norm_num)
    refine ⟨((w - (s.length : Int)).tdiv 2).toNat,
      ((w - (s.length : Int)) - (w - (s.length : Int)).tdiv 2).toNat, ?_, ?_, ?_, ?_⟩
    · unfold padString
      rw [if_neg (by decide), if_pos rfl]
    · rw [ht]; omega
    · rw [ht]; omega
    · rw [ht]; omega
  · intro h1 h2
    have harith : w.natAbs - s.length = (w - s.length).toNat := by omega
    unfold padString
    rw [if_neg h1, if_neg h2, harith]

/-- Witness for C3 at `s = "ab"`, `w = 5`: right alignment pads only on the
left. -/
theorem padString_alignment_semantics_witness :
    padString "ab" 5 "right" = spaces ((5 - ("ab".length : Int)).toNat) ++ "ab" :=
  (padString_alignment_semantics "ab" 5 "x" (by decide)).1

/-- One scan step never decreases a width. -/
theorem le_updWidth (col : String) (w : Int) (e : Entry) : w ≤ updWidth col w e := by
  unfold updWidth
  split
  · split <;> omega
  · omega

/-- Scanning a row never decreases a width. -/
theorem le_rowWidth (col : String) (w : Int) (row : List Entry) :
    w ≤ rowWidth col w row := by
  induction row generalizing w with
  | nil => exact le_refl w
  | cons e rest ih =>
    exact le_trans (le_updWidth col w e) (ih (updWidth col w e))

/-- Scanning any list of rows never decreases a width. -/
theorem le_foldRows (col : String) (w : Int) (rows : List (List Entry)) :
    w ≤ rows.foldl (fun w row => rowWidth col w row) w := by
  induction rows generalizing w with
  | nil => exact le_refl w
  | cons r rest ih =>
    exact le_trans (le_rowWidth col w r) (ih (rowWidth col w r))

/-- After scanning a row, the width dominates the length of every value in
it whose key is the scanned column. -/
theorem value_le_rowWidth (col : String) (w : Int) (row : List Entry)
    (e : Entry) (he : e ∈ row) (hk : e.key = col) :
    (e.value.length : Int) ≤ rowWidth col w row := by
  induction row generalizing w with
  | nil => cases he
  | cons a rest ih =>
    rcases List.mem_cons.mp he with rfl | hmem
    · have h1 : (e.value.length : Int) ≤ updWidth col w e := by
        unfold updWidth
        rw [if_pos hk]
        split <;> omega
      exact le_trans h1 (le_rowWidth col _ rest)
    · exact ih _ hmem

/-- After scanning a list of rows, the width dominates the length of every
matching value in every row. -/
theorem value_le_foldRows (col : String) (rows : List (List Entry)) (w : Int)
    (row : List Entry) (e : Entry) (hrow : row ∈ rows) (he : e ∈ row)
    (hk : e.key = col) :
    (e.value.length : Int) ≤ rows.foldl (fun w row => rowWidth col w row) w := by
  induction rows generalizing w with
  | nil => cases hrow
  | cons r rest ih =>
    rcases List.mem_cons.mp hrow with rfl | hmem
    · exact le_trans (value_le_rowWidth col w row e he hk)
        (le_foldRows col _ rest)
    · exact ih _ hmem

/-- A data cell reads either the empty string (key absent from the row) or
the value of some entry of the row with the cell's key. -/
theorem entryMap_spec (row : List Entry) (col : String) :
    entryMap row col = "" ∨
      ∃ e, e ∈ row ∧ e.key = col ∧ entryMap row col = e.value := by
  suffices h : ∀ f : String → String,
      (row.foldl (fun g e => fun k => if k = e.key then e.value else g k) f) col
          = f col ∨
        ∃ e, e ∈ row ∧ e.key = col ∧
          (row.foldl (fun g e => fun k => if k = e.key then e.value else g k) f) col
            = e.value by
    exact h (fun _ => "")
  induction row with
  | nil => intro f; exact Or.inl rfl
  | cons a rest ih =>
    intro f
    rcases ih (fun k => if k = a.key then a.value else f k) with h | ⟨e, hmem, hk, hv⟩
    · by_cases hcol : col = a.key
      · refine Or.inr ⟨a, List.mem_cons_self a rest, hcol.symm, ?_⟩
        show List.foldl (fun g e => fun k => if k = e.key then e.value else g k)
          (fun k => if k = a.key then a.value else f k) rest col = a.value
        rw [h]
        simp [hcol]
      · refine Or.inl ?_
        show List.foldl (fun g e => fun k => if k = e.key then e.value else g k)
          (fun k => if k = a.key then a.value else f k) rest col = f col
        rw [h]
        simp [hcol]
    · refine Or.inr ⟨e, List.mem_cons_of_mem a hmem, hk, ?_⟩
      show List.foldl (fun g e => fun k => if k = e.key then e.value else g k)
        (fun k => if k = a.key then a.value else f k) rest col = e.value
      exact hv

/-- C10: for every column of the first row, the final computed width
dominates the length of that column's value in every data row — the
content-maximum scan runs even when a custom width was supplied — so the
padding amount `width - len(cell value)` of every data cell is
non-negative (and in particular the center-alignment split never repeats a
negative count on a data cell). -/
theorem colWidth_dominates_content (t : Table) (col : String)
    (hcol : col ∈ columnNames t) :
    (∀ row ∈ t.data, ∀ e ∈ row, e.key = col →
        (e.value.length : Int) ≤ colWidth t col) ∧
      (∀ row ∈ t.data, 0 ≤ colWidth t col - ((entryMap row col).length : Int)) := by
  have hmain : ∀ row ∈ t.data, ∀ e ∈ row, e.key = col →
      (e.value.length : Int) ≤ colWidth t col := by
    intro row hrow e he hk
    exact value_le_foldRows col t.data (initWidth t col) row e hrow he hk
  refine ⟨hmain, ?_⟩
  have hpos : 0 ≤ colWidth t col := by
    rcases hd : t.data with _ | ⟨r, rest⟩
    · rw [columnNames, hd] at hcol
      cases hcol
    · rw [columnNames, hd] at hcol
      obtain ⟨e, he, hk⟩ := List.mem_map.mp hcol
      have := hmain r (by rw [hd]; exact List.mem_cons_self r rest) e he hk
      omega
  intro row hrow
  rcases entryMap_spec row col with h | ⟨e, he, hk, hv⟩
  · rw [h]
    simpa using hpos
  · have := hmain row hrow e he hk
    rw [hv]
    omega

/-- Witness for C10 at a one-row, one-column table. -/
theorem colWidth_dominates_content_witness :
    (("xx".length : Int)) ≤ colWidth ⟨[[⟨"a", "xx"⟩]], ⟨[], []⟩⟩ "a" :=
  (colWidth_dominates_content ⟨[[⟨"a", "xx"⟩]], ⟨[], []⟩⟩ "a" (by decide)).1
    [⟨"a", "xx"⟩] (by decide) ⟨"a", "xx"⟩ (by decide) rfl

/-- The scan step is a guarded maximum. -/
theorem updWidth_eq_max (col : String) (w : Int) (e : Entry) :
    updWidth col w e =
      if e.key = col then max w (e.value.length : Int) else w := by
  unfold updWidth
  split
  · split <;> omega
  · rfl

/-- Scanning a row folds the maximum over the row's matching value
lengths. -/
theorem rowWidth_eq_matchLens (col : String) (w : Int) (row : List Entry) :
    rowWidth col w row = (matchLens col row).foldl max w := by
  induction row generalizing w with
  | nil => rfl
  | cons e rest ih =>
    by_cases h : e.key = col
    · show rowWidth col (updWidth col w e) rest = _
      rw [ih, updWidth_eq_max, if_pos h, matchLens, if_pos h]
      rfl
    · show rowWidth col (updWidth col w e) rest = _
      rw [ih, updWidth_eq_max, if_neg h, matchLens, if_neg h]

/-- Scanning all rows folds the maximum over all matching value lengths. -/
theorem foldRows_eq_allMatchLens (col : String) (w : Int)
    (rows : List (List Entry)) :
    rows.foldl (fun w row => rowWidth col w row) w =
      (allMatchLens col rows).foldl max w := by
  induction rows generalizing w with
  | nil => rfl
  | cons r rest ih =>
    show rest.foldl (fun w row => rowWidth col w row) (rowWidth col w r) = _
    rw [ih, rowWidth_eq_matchLens, allMatchLens]
    show _ = (matchLens col r ++ allMatchLens col rest).foldl max w
    rw [List.foldl_append]
    rfl

/-- A maximum seeded into a fold of maxima factors out. -/
theorem foldl_max_factor (L : List Int) (a b : Int) :
    L.foldl max (max a b) = max a (L.foldl max b) := by
  induction L generalizing b with
  | nil => rfl
  | cons c rest ih =>
    show rest.foldl max (max (max a b) c) = max a (rest.foldl max (max b c))
    rw [max_assoc]
    exact ih (max b c)

/-- Folding the maximum of a non-empty list of non-negative integers from
an arbitrary seed is the maximum of the seed and the zero-seeded fold. -/
theorem foldl_max_start (L : List Int) (w : Int) (hne : L ≠ [])
    (hnn : ∀ x ∈ L, 0 ≤ x) : L.foldl max w = max w (L.foldl max 0) := by
  cases L with
  | nil => exact absurd rfl hne
  | cons x rest =>
    have h0 : max 0 x = x := max_eq_right (hnn x (List.mem_cons_self x rest))
    show rest.foldl max (max w x) = max w (rest.foldl max (max 0 x))
    rw [h0]
    exact foldl_max_factor rest w x

/-- Every matching value length is non-negative. -/
theorem matchLens_nonneg (col : String) (row : List Entry) :
    ∀ x ∈ matchLens col row, 0 ≤ x := by
  induction row with
  | nil => intro x hx; cases hx
  | cons e rest ih =>
    intro x hx
    by_cases h : e.key = col
    · rw [matchLens, if_pos h] at hx
      rcases List.mem_cons.mp hx with rfl | hx
      · exact Int.ofNat_nonneg _
      · exact ih x hx
    · rw [matchLens, if_neg h] at hx
      exact ih x hx

/-- Every collected value length is non-negative. -/
theorem allMatchLens_nonneg (col : String) (rows : List (List Entry)) :
    ∀ x ∈ allMatchLens col rows, 0 ≤ x := by
  induction rows with
  | nil => intro x hx; cases hx
  | cons r rest ih =>
    intro x hx
    rw [allMatchLens] at hx
    rcases List.mem_append.mp hx with hx | hx
    · exact matchLens_nonneg col r x hx
    · exact ih x hx

/-- A row containing an entry with the scanned key contributes at least one
matching length. -/
theorem matchLens_ne_nil (col : String) (row : List Entry) (e : Entry)
    (he : e ∈ row) (hk : e.key = col) : matchLens col row ≠ [] := by
  induction row with
  | nil => cases he
  | cons a rest ih =>
    by_cases h : a.key = col
    · rw [matchLens, if_pos h]
      exact List.cons_ne_nil _ _
    · rw [matchLens, if_neg h]
      rcases List.mem_cons.mp he with rfl | hmem
      · exact absurd hk h
      · exact ih hmem

/-- A column of the first row has a non-empty collected-lengths list. -/
theorem allMatchLens_ne_nil (t : Table) (col : String)
    (hcol : col ∈ columnNames t) : allMatchLens col t.data ≠ [] := by
  rcases hd : t.data with _ | ⟨r, rest⟩
  · rw [columnNames, hd] at hcol
    cases hcol
  · rw [columnNames, hd] at hcol
    obtain ⟨e, he, hk⟩ := List.mem_map.mp hcol
    rw [allMatchLens]
    intro hemp
    exact matchLens_ne_nil col r e he hk (List.append_eq_nil.mp hemp).1

/-- C1 counterexample: for the one-column table with custom width `"2"`
(which parses as the integer 2) and the single value `"xxxx"`, the rendered
width of the column is 4, not 2: the header is padded to four columns, the
separator is four dashes, and the value is not truncated. -/
theorem custom_width_not_authoritative :
    (Columns.mk [("a", "2")] []).customWidth.lookup "a" = some "2" ∧
      atoi "2" = some 2 ∧
      colWidth ⟨[[⟨"a", "xxxx"⟩]], ⟨[("a", "2")], []⟩⟩ "a" = 4 ∧
      Table.plainText ⟨[[⟨"a", "xxxx"⟩]], ⟨[("a", "2")], []⟩⟩ =
        "A   \n----\nxxxx\n" := by
  decide

/-- C1 amended: when a column of the first row has a custom width string
that parses as the integer `w`, the rendered width of the column is
`max w (content maximum)` — the content scan runs even for custom widths,
so an overflowing value enlarges the column and the explicit width acts as
a minimum, not an authoritative width. -/
theorem colWidth_custom_is_minimum (t : Table) (col wStr : String) (w : Int)
    (hlk : t.columns.customWidth.lookup col = some wStr)
    (hparse : atoi wStr = some w)
    (hcol : col ∈ columnNames t) :
    colWidth t col = max w (maxContentWidth t col) := by
  have hinit : initWidth t col = w := by
    simp only [initWidth, hlk, hparse]
  unfold colWidth maxContentWidth
  rw [hinit, foldRows_eq_allMatchLens, foldRows_eq_allMatchLens]
  exact foldl_max_start _ w (allMatchLens_ne_nil t col hcol)
    (allMatchLens_nonneg col t.data)

/-- Witness for the amended C1 at the counterexample table: the rendered
width is the maximum of the custom width 2 and the content maximum 4. -/
theorem colWidth_custom_is_minimum_witness :
    colWidth ⟨[[⟨"a", "xxxx"⟩]], ⟨[("a", "2")], []⟩⟩ "a" =
      max 2 (maxContentWidth ⟨[[⟨"a", "xxxx"⟩]], ⟨[("a", "2")], []⟩⟩ "a") :=
  colWidth_custom_is_minimum ⟨[[⟨"a", "xxxx"⟩]], ⟨[("a", "2")], []⟩⟩ "a" "2" 2
    (by decide) (by decide) (by decide)

/-- Capitalizing preserves the length. -/
theorem capitalize_length (s : String) : (capitalize s).length = s.length := by
  rcases hs : s.data with _ | ⟨c, cs⟩ <;> simp [capitalize, String.length, hs]

/-- A cell whose content fits its width is rendered at exactly the width,
whatever the alignment. -/
theorem padString_length (s : String) (w : Int) (a : String)
    (hw : (s.length : Int) ≤ w) : (padString s w a).length = w.toNat := by
  have h0 : 0 ≤ w := le_trans (Int.ofNat_nonneg _) hw
  unfold padString
  by_cases h1 : a = "right"
  · rw [if_pos h1, if_pos h0]
    rw [String.length_append, spaces_length]
    omega
  · rw [if_neg h1]
    by_cases h2 : a = "center"
    · rw [if_pos h2]
      simp only [String.length_append, spaces_length]
      have ht : (w - (s.length : Int)).tdiv 2 = (w - (s.length : Int)) / 2 :=
        Int.tdiv_eq_ediv (by omega) (by norm_num)
      rw [ht]
      omega
    · rw [if_neg h2]
      rw [String.length_append, spaces_length]
      omega

/-- The empty run of spaces. -/
theorem spaces_zero : spaces 0 = "" := rfl

/-- Whatever the width and alignment, a padded cell is the content with
space runs on both sides (possibly empty). -/
theorem padString_shape (s : String) (w : Int) (a : String) :
    ∃ l r, padString s w a = spaces l ++ s ++ spaces r := by
  unfold padString
  by_cases h1 : a = "right"
  · rw [if_pos h1]
    by_cases h0 : 0 ≤ w
    · rw [if_pos h0]
      exact ⟨w.toNat - s.length, 0, by rw [spaces_zero, String.append_empty]⟩
    · rw [if_neg h0]
      exact ⟨0, w.natAbs - s.length, by rw [spaces_zero, String.empty_append]⟩
  · rw [if_neg h1]
    by_cases h2 : a = "center"
    · rw [if_pos h2]
      exact ⟨_, _, rfl⟩
    · rw [if_neg h2]
      exact ⟨0, w.natAbs - s.length, by rw [spaces_zero, String.empty_append]⟩

/-- Joining two pointwise length-equal cell lists with two length-equal
separators gives length-equal rows. -/
theorem joinSep_map_length {α : Type} (sep1 sep2 : String)
    (hsep : sep1.length = sep2.length) (f g : α → String) (l : List α)
    (h : ∀ x ∈ l, (f x).length = (g x).length) :
    (joinSep sep1 (l.map f)).length = (joinSep sep2 (l.map g)).length := by
  induction l with
  | nil => rfl
  | cons x xs ih =>
    cases xs with
    | nil => exact h x (List.mem_cons_self x [])
    | cons y ys =>
      have hx := h x (List.mem_cons_self x (y :: ys))
      have hrest := ih (fun z hz => h z (List.mem_cons_of_mem x hz))
      show (f x ++ sep1 ++ joinSep sep1 (f y :: ys.map f)).length =
        (g x ++ sep2 ++ joinSep sep2 (g y :: ys.map g)).length
      simp only [List.map_cons] at hrest
      simp only [String.length_append, hx, hsep, hrest]

/-- The final width of a column is at least its initial width. -/
theorem initWidth_le_colWidth (t : Table) (col : String) :
    initWidth t col ≤ colWidth t col :=
  le_foldRows col (initWidth t col) t.data

/-- C5 counterexample: the one-row table with key `"name"` and custom width
`"1"` has every row carrying exactly the first row's keys, yet its header
row (5 characters, `"name"` capitalized and unpadded) is longer than its
separator row (2 characters): the claim fails for tables whose custom
width is smaller than the key's length. -/
theorem header_separator_length_mismatch :
    rowsAligned ⟨[[⟨"name", "x"⟩]], ⟨[("name", "1")], []⟩⟩ ∧
      (headerRow ⟨[[⟨"name", "x"⟩]], ⟨[("name", "1")], []⟩⟩).length ≠
        (separatorRow ⟨[[⟨"name", "x"⟩]], ⟨[("name", "1")], []⟩⟩).length := by
  constructor
  · intro row hrow
    rcases List.mem_singleton.mp hrow with rfl
    rfl
  · decide

/-- C5 amended: for every table in which every row has exactly the keys of
the first row AND no parseable custom width is smaller than its column
key's length (each column's initial width is at least the key's length —
automatically true without custom widths), each header cell is the
column key with its first character upper-cased surrounded only by space
padding, and the separator row has the same total length as the header
row. -/
theorem header_capitalized_and_separator_length (t : Table)
    (hrows : rowsAligned t)
    (hw : ∀ col ∈ columnNames t, (col.length : Int) ≤ initWidth t col) :
    (∀ col ∈ columnNames t, ∃ l r,
        headerCell t col = spaces l ++ capitalize col ++ spaces r) ∧
      (headerRow t).length = (separatorRow t).length := by
  constructor
  · intro col _
    exact padString_shape (capitalize col) (colWidth t col) (alignOf t col)
  · unfold headerRow separatorRow
    rw [String.length_append, String.length_append]
    have hcells : ∀ col ∈ columnNames t,
        (headerCell t col).length =
          ((fun col => strRepeat '-' (colWidth t col).toNat) col).length := by
      intro col hcol
      have hfit : ((capitalize col).length : Int) ≤ colWidth t col := by
        rw [capitalize_length]
        exact le_trans (hw col hcol) (initWidth_le_colWidth t col)
      rw [strRepeat_length]
      exact padString_length (capitalize col) (colWidth t col) (alignOf t col) hfit
    rw [joinSep_map_length " | " "-+-" rfl (headerCell t)
      (fun col => strRepeat '-' (colWidth t col).toNat) (columnNames t) hcells]

/-- Witness for the amended C5 at a table without custom widths. -/
theorem header_capitalized_and_separator_length_witness :
    (headerRow ⟨[[⟨"name", "x"⟩]], ⟨[], []⟩⟩).length =
      (separatorRow ⟨[[⟨"name", "x"⟩]], ⟨[], []⟩⟩).length :=
  (header_capitalized_and_separator_length ⟨[[⟨"name", "x"⟩]], ⟨[], []⟩⟩
    (fun row hrow => by
      rcases List.mem_singleton.mp hrow with rfl
      rfl)
    (by decide)).2

/-- C8: in every reachable state the process-wide default prototype is a
non-nil builder, and `New()` clones it; moreover `SetDefault` with nil
leaves the stored prototype unchanged and `SetDefault` with a non-nil
builder replaces it wholesale. -/
theorem default_prototype_never_nil (st : Option Builder)
    (h : RegistryReachable st) :
    (∃ b, st = some b ∧ New st = some b.clone) ∧
      SetDefault st none = st ∧
      (∀ b', SetDefault st (some b') = some b') := by
  refine ⟨?_, rfl, fun b' => rfl⟩
  induction h with
  | init year => exact ⟨newDefaultBuilder year, rfl, rfl⟩
  | step st b _ ih =>
    cases b with
    | none => exact ih
    | some b' => exact ⟨b', rfl, rfl⟩

/-- Witness for C8 at the startup state. -/
theorem default_prototype_never_nil_witness :
    ∃ b, (some (newDefaultBuilder 2025) : Option Builder) = some b ∧
      New (some (newDefaultBuilder 2025)) = some b.clone :=
  (default_prototype_never_nil (some (newDefaultBuilder 2025))
    (RegistryReachable.init 2025)).1

/-- Reading `setFallback` back anywhere: only the written index changes, and
it changes to its rewritten form. -/
theorem setFallback_get? (fmt : String) (store : List ActionData) (j i : Nat) :
    (setFallback fmt store j).get? i =
      if j = i then (store.get? i).map (rewriteFallback fmt)
      else store.get? i := by
  unfold setFallback
  cases hj : store.get? j with
  | none =>
    by_cases hij : j = i
    · subst hij
      rw [if_pos rfl, hj]
      rfl
    · rw [if_neg hij]
  | some a =>
    rw [List.get?_set]
    by_cases hij : j = i
    · subst hij
      rw [if_pos rfl, if_pos rfl, hj]
      rfl
    · rw [if_neg hij, if_neg hij]

/-- The fallback pass read back anywhere: every index listed in the
fallback list is rewritten, every other index is untouched. -/
theorem foldl_setFallback_get? (fmt : String) (l : List Nat)
    (store : List ActionData) (i : Nat) :
    (l.foldl (setFallback fmt) store).get? i =
      if i ∈ l then (store.get? i).map (rewriteFallback fmt)
      else store.get? i := by
  induction l generalizing store with
  | nil => simp
  | cons j rest ih =>
    show (rest.foldl (setFallback fmt) (setFallback fmt store j)).get? i = _
    rw [ih]
    by_cases hmem : i ∈ rest
    · rw [if_pos hmem, if_pos (List.mem_cons_of_mem j hmem), setFallback_get?]
      by_cases hij : j = i
      · rw [if_pos hij, Option.map_map]
        congr 1
      · rw [if_neg hij]
    · rw [if_neg hmem, setFallback_get?]
      by_cases hij : j = i
      · subst hij
        rw [if_pos rfl, if_pos (List.mem_cons_self j rest)]
      · have hnot : i ∉ j :: rest := by
          simp only [List.mem_cons]
          rintro (rfl | hc)
          · exact hij rfl
          · exact hmem hc
        rw [if_neg hij, if_neg hnot]

/-- The fallback-rewriting pass is idempotent on the action store. -/
theorem foldl_setFallback_idem (fmt : String) (l : List Nat)
    (store : List ActionData) :
    l.foldl (setFallback fmt) (l.foldl (setFallback fmt) store) =
      l.foldl (setFallback fmt) store := by
  apply List.ext
  intro i
  rw [foldl_setFallback_get?, foldl_setFallback_get?]
  by_cases hmem : i ∈ l
  · rw [if_pos hmem, if_pos hmem, Option.map_map]
    congr 1
  · rw [if_neg hmem, if_neg hmem]

/-- The pass `beforeBuild` is idempotent: rewriting the fallback texts a second time
recomputes the same values, because the rewrite depends only on the format
and each action's (unchanged) button text. -/
theorem beforeBuild_idem (b : Builder) :
    b.beforeBuild.beforeBuild = b.beforeBuild := by
  unfold Builder.beforeBuild
  simp only [foldl_setFallback_idem]

/-- C4: `Build()` is a pure function of the builder's state: calling it a
second time on the (possibly mutated) builder returned by the first call
produces a document with the same subject, addresses, HTML content and
plain-text content, for every deterministic HTML and plain-text renderer —
in particular the fallback-text rewriting performed before rendering is
idempotent. -/
theorem build_is_pure (generateHTML generatePlaintext : Builder → String)
    (b : Builder) :
    (Builder.Build generateHTML generatePlaintext
        (Builder.Build generateHTML generatePlaintext b).1).2 =
      (Builder.Build generateHTML generatePlaintext b).2 := by
  show (Builder.Build generateHTML generatePlaintext b.beforeBuild).2 =
    (Builder.Build generateHTML generatePlaintext b).2
  unfold Builder.Build
  rw [beforeBuild_idem]

end Mailgen
